import Mathlib

/-!
Verification of the log retrieval core (`src/db/mod.rs`): query construction
(`apply_limit_offset`, `read_channel`, `read_user`), bucket discovery
(`read_available_channel_logs`, `read_available_user_logs`), two-phase random
sampling (`read_random_user_line`, `read_random_channel_line`) and bulk user
erasure (`delete_user_logs`), shallowly embedded in Lean.

The storage engine (ClickHouse), the `chrono` calendar library and the `rand`
random source are external collaborators: their behaviour is modelled from
their documented contracts where a claim depends on it.  Value types from
`crate::logs::schema`, `crate::web::schema` and the `crate::error::Error`
enum are not part of the analysed sources and are modelled from the spec.
-/

namespace Rustlog

/-- Modelled from the spec: the error kinds of this layer (`crate::error::Error`
is not among the analysed sources).  `NotFound` signals zero matching rows for
sampling, `StorageError` wraps any failure of the execution capability, and
`InvariantViolation` is the fatal defensive failure (in the code, the
`expect("Invalid DateTime")` panic in bucket discovery). -/
inductive Error where
  | notFound
  | storageError
  | invariantViolation
  deriving DecidableEq, Repr

/-- Modelled from the spec: `ChannelLogDate` (from `crate::logs::schema`,
not among the analysed sources) — a calendar day identifying a channel's
daily bucket. -/
structure ChannelLogDate where
  year : Nat
  month : Nat
  day : Nat
  deriving DecidableEq, Repr

/-- Modelled from the spec: `UserLogDate` (from `crate::logs::schema`, not
among the analysed sources) — a calendar month identifying a user's monthly
bucket. -/
structure UserLogDate where
  year : Nat
  month : Nat
  deriving DecidableEq, Repr

/-- Modelled from the spec: `AvailableLogDate` (from `crate::web::schema`,
not among the analysed sources) — a discovered bucket descriptor with string
fields, the day being present only for day-granular discovery. -/
structure AvailableLogDate where
  year : String
  month : String
  day : Option String
  deriving DecidableEq, Repr

/-- Rust's `{:0>2}` formatting of a number: left-pad with zeros to width 2. -/
def pad2 (n : Nat) : String :=
  if n < 10 then "0" ++ toString n else toString n

/-- Modelled from the spec: the `Display` serialization of `ChannelLogDate`
(bucket-start day, `YYYY-MM-DD`), used as a bound value by `read_channel`. -/
def ChannelLogDate.serialize (d : ChannelLogDate) : String :=
  toString d.year ++ "-" ++ pad2 d.month ++ "-" ++ pad2 d.day

/-- `apply_limit_offset` from `src/db/mod.rs`: appends ` LIMIT {limit}` when a
limit is present, then ` OFFSET {offset}` when an offset is present. -/
def apply_limit_offset (query : String) (limit offset : Option Nat) : String :=
  let query :=
    match limit with
    | some l => query ++ " LIMIT " ++ toString l
    | none => query
  match offset with
  | some o => query ++ " OFFSET " ++ toString o
  | none => query

/-- The pagination suffix as the spec describes it: `LIMIT {n}` exactly when a
limit is given, then `OFFSET {n}` exactly when an offset is given, nothing
otherwise.  Stated from the spec's words, to be compared with
`apply_limit_offset`. -/
def paginationSuffix (limit offset : Option Nat) : String :=
  (match limit with
   | some l => " LIMIT " ++ toString l
   | none => "") ++
  (match offset with
   | some o => " OFFSET " ++ toString o
   | none => "")

/-- A built query: text plus the ordered positional bind values. -/
structure BuiltQuery where
  text : String
  binds : List String
  deriving DecidableEq, Repr

/-- The query text built by `read_channel` in `src/db/mod.rs`. -/
def read_channel_query (reverse : Bool) (limit offset : Option Nat) : String :=
  let suffix := if reverse then "DESC" else "ASC"
  apply_limit_offset
    ("SELECT raw FROM message WHERE channel_id = ? AND toStartOfDay(timestamp) = ? ORDER BY timestamp "
      ++ suffix) limit offset

/-- The query text built by `read_user` in `src/db/mod.rs`. -/
def read_user_query (reverse : Bool) (limit offset : Option Nat) : String :=
  let suffix := if reverse then "DESC" else "ASC"
  apply_limit_offset
    ("SELECT raw FROM message WHERE channel_id = ? AND user_id = ? AND toStartOfMonth(timestamp) = ? ORDER BY timestamp "
      ++ suffix) limit offset

/-- `read_channel` from `src/db/mod.rs`, restricted to what it hands the
store: query text and the positional bind values, in bind order. -/
def read_channel (channel_id : String) (log_date : ChannelLogDate)
    (reverse : Bool) (limit offset : Option Nat) : BuiltQuery :=
  { text := read_channel_query reverse limit offset
    binds := [channel_id, log_date.serialize] }

/-- `read_user` from `src/db/mod.rs`, restricted to what it hands the store:
query text and the positional bind values, in bind order.  The third bind is
the source's `format!("{}-{:0>2}-1", log_date.year, log_date.month)`. -/
def read_user (channel_id user_id : String) (log_date : UserLogDate)
    (reverse : Bool) (limit offset : Option Nat) : BuiltQuery :=
  { text := read_user_query reverse limit offset
    binds := [channel_id, user_id,
      toString log_date.year ++ "-" ++ pad2 log_date.month ++ "-1"] }

/-- Modelled from the rand collaborator's contract: `(0..n).choose(&mut rng)`
returns `None` exactly when the range is empty, and otherwise `Some` of an
element of `[0, n)` selected by the random source.  The source is abstracted
as the accepted random word `rng`, reduced into the range. -/
def chooseRange (n : Nat) (rng : Nat) : Option Nat :=
  if n = 0 then none else some (rng % n)

/-- The store-visible results a single run of a sampling operation can
observe: the phase-1 count (or a storage failure, abstracted as its message)
and, for each bound offset, the phase-3 optional fetched row (or a storage
failure). -/
structure SampleStore where
  countResult : Except String Nat
  fetchAtOffset : Nat → Except String (Option String)

/-- The two query shapes a sampling operation can issue, with the offset
bound into the second. -/
inductive SampleQuery where
  | countQ
  | offsetFetchQ (offset : Nat)
  deriving DecidableEq, Repr

/-- `read_random_user_line` from `src/db/mod.rs`: count matching rows, fail
`NotFound` on zero, draw an offset from `[0, count)` (the draw's `None` case
also mapped to `NotFound` by `ok_or`), then fetch at that offset, mapping an
empty optional to `NotFound`.  Returns the result together with the list of
issued queries, in order. -/
def read_random_user_line (store : SampleStore) (rng : Nat) :
    Except Error String × List SampleQuery :=
  match store.countResult with
  | .error _ => (.error .storageError, [.countQ])
  | .ok total_count =>
    if total_count = 0 then (.error .notFound, [.countQ])
    else
      match chooseRange total_count rng with
      | none => (.error .notFound, [.countQ])
      | some offset =>
        match store.fetchAtOffset offset with
        | .error _ => (.error .storageError, [.countQ, .offsetFetchQ offset])
        | .ok none => (.error .notFound, [.countQ, .offsetFetchQ offset])
        | .ok (some text) => (.ok text, [.countQ, .offsetFetchQ offset])

/-- `read_random_channel_line` from `src/db/mod.rs`: same two-phase algorithm
as `read_random_user_line`, over the channel-only filter (the filter itself
is baked into the `SampleStore` abstraction). -/
def read_random_channel_line (store : SampleStore) (rng : Nat) :
    Except Error String × List SampleQuery :=
  match store.countResult with
  | .error _ => (.error .storageError, [.countQ])
  | .ok total_count =>
    if total_count = 0 then (.error .notFound, [.countQ])
    else
      match chooseRange total_count rng with
      | none => (.error .notFound, [.countQ])
      | some offset =>
        match store.fetchAtOffset offset with
        | .error _ => (.error .storageError, [.countQ, .offsetFetchQ offset])
        | .ok none => (.error .notFound, [.countQ, .offsetFetchQ offset])
        | .ok (some text) => (.ok text, [.countQ, .offsetFetchQ offset])

/-- Modelled from the chrono collaborator: the proleptic-Gregorian calendar
fields `(year, month, day)` of the day lying `z` days after 1970-01-01
(Howard Hinnant's civil-from-days algorithm, with which chrono's `NaiveDate`
field accessors agree). -/
def civilFromDays (z : Int) : Int × Int × Int :=
  let zd := z + 719468
  let era := zd / 146097
  let doe := zd - era * 146097
  let yoe := (doe - doe / 1460 + doe / 36524 - doe / 146096) / 365
  let y := yoe + era * 400
  let doy := doe - (365 * yoe + yoe / 4 - yoe / 100)
  let mp := (5 * doy + 2) / 153
  let d := doy - (153 * mp + 2) / 5 + 1
  let m := if mp < 10 then mp + 3 else mp - 9
  (if m ≤ 2 then y + 1 else y, m, d)

/-- The canonical day number (days since 1970-01-01) of a proleptic-Gregorian
calendar date — the inverse direction of `civilFromDays`, used to express the
chronological order on discovered buckets. -/
def daysFromCivil (y m d : Int) : Int :=
  let yy := if m ≤ 2 then y - 1 else y
  let era := yy / 400
  let yoe := yy - era * 400
  let doy := (153 * (if 2 < m then m - 3 else m + 9) + 2) / 5 + d - 1
  let doe := yoe * 365 + yoe / 4 - yoe / 100 + doy
  era * 146097 + doe - 719468

/-- Modelled from the chrono collaborator: the calendar fields of
`NaiveDateTime::from_timestamp_opt(secs, 0)` — `none` exactly when the
resulting date falls outside chrono's representable calendar range (years
-262144 to 262143). -/
def fromTimestampOpt (secs : Int) : Option (Int × Int × Int) :=
  let ymd := civilFromDays (secs / 86400)
  if ymd.1 < -262144 ∨ 262143 < ymd.1 then none else some ymd

/-- The `AvailableLogDate` built by `read_available_channel_logs` from the
calendar fields of one bucket timestamp: day-granular, day present. -/
def channelBucketDate (ymd : Int × Int × Int) : AvailableLogDate :=
  { year := toString ymd.1, month := toString ymd.2.1,
    day := some (toString ymd.2.2) }

/-- The `AvailableLogDate` built by `read_available_user_logs` from the
calendar fields of one bucket timestamp: month-granular, day absent. -/
def userBucketDate (ymd : Int × Int × Int) : AvailableLogDate :=
  { year := toString ymd.1, month := toString ymd.2.1, day := none }

/-- One element of the bucket-discovery mapping: a failed calendar
conversion is the `expect("Invalid DateTime")` panic (the fatal invariant
violation of the spec's error model), a successful one is turned into an
`AvailableLogDate` by the granularity-specific constructor `f` and prepended
to the remaining results. -/
def discoveryStep (o : Option (Int × Int × Int))
    (rest : Except Error (List AvailableLogDate))
    (f : Int × Int × Int → AvailableLogDate) :
    Except Error (List AvailableLogDate) :=
  match o with
  | none => .error .invariantViolation
  | some ymd =>
    match rest with
    | .error e => .error e
    | .ok dates => .ok (f ymd :: dates)

/-- `read_available_channel_logs` from `src/db/mod.rs`, applied to the
decoded bucket timestamps the store returned for the GROUP BY day query:
each Unix timestamp is converted to calendar fields and rendered with a
present day component. -/
def read_available_channel_logs :
    List Int → Except Error (List AvailableLogDate)
  | [] => .ok []
  | ts :: rest =>
    discoveryStep (fromTimestampOpt ts) (read_available_channel_logs rest)
      channelBucketDate

/-- `read_available_user_logs` from `src/db/mod.rs`, applied to the decoded
bucket timestamps the store returned for the GROUP BY month query; identical
to the channel variant except that the produced day component is absent. -/
def read_available_user_logs :
    List Int → Except Error (List AvailableLogDate)
  | [] => .ok []
  | ts :: rest =>
    discoveryStep (fromTimestampOpt ts) (read_available_user_logs rest)
      userBucketDate

/-- The chronological newest-first order on calendar field triples, via the
canonical day number. -/
def chronGT (a b : Int × Int × Int) : Prop :=
  daysFromCivil b.1 b.2.1 b.2.2 < daysFromCivil a.1 a.2.1 a.2.2

instance : DecidableRel chronGT := fun a b =>
  inferInstanceAs (Decidable (daysFromCivil b.1 b.2.1 b.2.2
    < daysFromCivil a.1 a.2.1 a.2.2))

/-- The month-granular bucket key of a calendar field triple. -/
def monthKey (ymd : Int × Int × Int) : Int × Int :=
  (ymd.1, ymd.2.1)

/-- A stored log row, as the scan and delete operations see it. -/
structure Row where
  channel_id : String
  user_id : String
  timestamp : Int
  raw : String
  deriving DecidableEq, Repr

/-- The channel-scan bucket filter `toStartOfDay(timestamp) = ?` with the
serialized `ChannelLogDate` bound: the row's timestamp falls on that
calendar day. -/
def sameDayBucket (t : Int) (d : ChannelLogDate) : Prop :=
  civilFromDays (t / 86400) = ((d.year : Int), (d.month : Int), (d.day : Int))

instance (t : Int) (d : ChannelLogDate) : Decidable (sameDayBucket t d) :=
  inferInstanceAs (Decidable (civilFromDays (t / 86400)
    = ((d.year : Int), (d.month : Int), (d.day : Int))))

/-- The user-scan bucket filter `toStartOfMonth(timestamp) = ?` with the
serialized `UserLogDate` bound: the row's timestamp falls in that calendar
month. -/
def sameMonthBucket (t : Int) (d : UserLogDate) : Prop :=
  (civilFromDays (t / 86400)).1 = (d.year : Int) ∧
  (civilFromDays (t / 86400)).2.1 = (d.month : Int)

instance (t : Int) (d : UserLogDate) : Decidable (sameMonthBucket t d) :=
  inferInstanceAs (Decidable (_ ∧ _))

/-- Ascending `ORDER BY timestamp` comparison on rows. -/
def tsLE (a b : Row) : Prop := a.timestamp ≤ b.timestamp

/-- Descending `ORDER BY timestamp` comparison on rows. -/
def tsGE (a b : Row) : Prop := b.timestamp ≤ a.timestamp

instance : DecidableRel tsLE := fun a b =>
  inferInstanceAs (Decidable (a.timestamp ≤ b.timestamp))

instance : DecidableRel tsGE := fun a b =>
  inferInstanceAs (Decidable (b.timestamp ≤ a.timestamp))

instance : IsTotal Row tsLE := ⟨fun a b => le_total a.timestamp b.timestamp⟩

instance : IsTrans Row tsLE := ⟨fun _ _ _ h1 h2 => le_trans h1 h2⟩

instance : IsTotal Row tsGE := ⟨fun a b => le_total b.timestamp a.timestamp⟩

instance : IsTrans Row tsGE := ⟨fun _ _ _ h1 h2 => le_trans h2 h1⟩

/-- Strict ascending timestamp order on rows. -/
def tsLT (a b : Row) : Prop := a.timestamp < b.timestamp

instance : DecidableRel tsLT := fun a b =>
  inferInstanceAs (Decidable (a.timestamp < b.timestamp))

instance : IsAntisymm Row tsLT :=
  ⟨fun _ _ h1 h2 => absurd h2 (lt_asymm h1)⟩

/-- Timestamp distinctness of two rows. -/
def tsNE (a b : Row) : Prop := a.timestamp ≠ b.timestamp

instance : DecidableRel tsNE := fun a b =>
  inferInstanceAs (Decidable (a.timestamp ≠ b.timestamp))

/-- SQL pagination semantics of the generated `LIMIT`/`OFFSET` clauses:
skip `offset` rows, then return at most `limit` rows. -/
def paginate (limit offset : Option Nat) (rows : List Row) : List Row :=
  let rows := rows.drop (offset.getD 0)
  match limit with
  | some l => rows.take l
  | none => rows

/-- Modelled from the spec: the store's evaluation of the channel-scan query
built by `read_channel` — filter by channel identifier and day-bucket match,
order by timestamp in the requested direction (ties left in stable order),
apply the pagination clauses, and return the `raw` column. -/
def scanChannel (table : List Row) (channel_id : String)
    (log_date : ChannelLogDate) (reverse : Bool)
    (limit offset : Option Nat) : List String :=
  let rows := table.filter fun r =>
    decide (r.channel_id = channel_id ∧ sameDayBucket r.timestamp log_date)
  let sorted := if reverse then List.insertionSort tsGE rows
    else List.insertionSort tsLE rows
  (paginate limit offset sorted).map Row.raw

/-- Modelled from the spec: the store's evaluation of the user-scan query
built by `read_user` — filter by channel identifier, user identifier and
month-bucket match, order by timestamp in the requested direction, apply the
pagination clauses, and return the `raw` column. -/
def scanUser (table : List Row) (channel_id user_id : String)
    (log_date : UserLogDate) (reverse : Bool)
    (limit offset : Option Nat) : List String :=
  let rows := table.filter fun r =>
    decide (r.channel_id = channel_id ∧ r.user_id = user_id ∧
      sameMonthBucket r.timestamp log_date)
  let sorted := if reverse then List.insertionSort tsGE rows
    else List.insertionSort tsLE rows
  (paginate limit offset sorted).map Row.raw

/-- `delete_user_logs` from `src/db/mod.rs`: the issued mutation — its text
interpolates nothing, and its only bind is the user identifier; there is no
channel or time condition. -/
def delete_user_logs_query (user_id : String) : BuiltQuery :=
  { text := "ALTER TABLE message DELETE WHERE user_id = ?"
    binds := [user_id] }

/-- Modelled from the spec: the store's application of the delete-by-user
mutation issued by `delete_user_logs` — remove every row whose user
identifier equals the bound value, keep everything else untouched. -/
def delete_user_logs (table : List Row) (user_id : String) : List Row :=
  table.filter fun r => decide (r.user_id ≠ user_id)

/-- C1: the query text produced for a channel or user scan is the base query
followed by exactly the spec's pagination suffix, for every limit/offset
combination: `LIMIT` iff a limit is given, then `OFFSET` iff an offset is
given, in that order, and nothing when neither is given. -/
theorem c1_pagination_suffix (q : String) (limit offset : Option Nat) :
    apply_limit_offset q limit offset = q ++ paginationSuffix limit offset := by
  cases limit <;> cases offset <;>
    simp [apply_limit_offset, paginationSuffix, String.append_assoc]

/-- C6: the scan query text depends only on (direction, limit, offset) — two
invocations differing only in channel/user identifiers or bucket dates yield
identical SQL text — and the identifier and date values appear exactly as the
positional bind list, never in the text. -/
theorem c6_text_independent_of_identifiers
    (reverse : Bool) (limit offset : Option Nat)
    (c₁ c₂ u₁ u₂ : String) (d₁ d₂ : ChannelLogDate) (m₁ m₂ : UserLogDate) :
    (read_channel c₁ d₁ reverse limit offset).text
        = (read_channel c₂ d₂ reverse limit offset).text
    ∧ (read_user c₁ u₁ m₁ reverse limit offset).text
        = (read_user c₂ u₂ m₂ reverse limit offset).text
    ∧ (read_channel c₁ d₁ reverse limit offset).binds = [c₁, d₁.serialize]
    ∧ (read_user c₁ u₁ m₁ reverse limit offset).binds
        = [c₁, u₁, toString m₁.year ++ "-" ++ pad2 m₁.month ++ "-1"] :=
  ⟨rfl, rfl, rfl, rfl⟩

theorem read_random_user_eq_channel (store : SampleStore) (rng : Nat) :
    read_random_user_line store rng = read_random_channel_line store rng := rfl

theorem sample_notFound_iff (store : SampleStore) (rng : Nat) :
    (read_random_user_line store rng).1 = .error .notFound ↔
      store.countResult = .ok 0 ∨
        ∃ n offset, store.countResult = .ok n ∧ n ≠ 0 ∧
          chooseRange n rng = some offset ∧
          store.fetchAtOffset offset = .ok none := by
  rcases hc : store.countResult with e | n
  · simp [read_random_user_line, hc]
  · by_cases hn : n = 0
    · subst hn
      simp [read_random_user_line, hc]
    · have hch : chooseRange n rng = some (rng % n) := by simp [chooseRange, hn]
      rcases hf : store.fetchAtOffset (rng % n) with e | o
      · simp [read_random_user_line, hc, hn, hch, hf]
      · cases o <;> simp [read_random_user_line, hc, hn, hch, hf]

theorem sample_queries_shape (store : SampleStore) (rng : Nat) :
    ((read_random_user_line store rng).2 = [.countQ] ∨
      ∃ offset,
        (read_random_user_line store rng).2 = [.countQ, .offsetFetchQ offset]) ∧
    (store.countResult = .ok 0 →
      (read_random_user_line store rng).2 = [.countQ]) := by
  rcases hc : store.countResult with e | n
  · refine ⟨Or.inl ?_, fun h => by simp [hc] at h⟩
    simp [read_random_user_line, hc]
  · by_cases hn : n = 0
    · subst hn
      exact ⟨Or.inl (by simp [read_random_user_line, hc]), fun _ => by
        simp [read_random_user_line, hc]⟩
    · have hch : chooseRange n rng = some (rng % n) := by simp [chooseRange, hn]
      refine ⟨Or.inr ⟨rng % n, ?_⟩, fun h => absurd h (by simp [hc, hn])⟩
      rcases hf : store.fetchAtOffset (rng % n) with e | o
      · simp [read_random_user_line, hc, hn, hch, hf]
      · cases o <;> simp [read_random_user_line, hc, hn, hch, hf]

/-- C2: for every store behaviour, a sampling operation (user or channel
variant) fails with `NotFound` exactly when the phase-1 count is zero or the
phase-3 offset fetch returns no row; when the count is zero the offset-fetch
query is never issued; and no retry happens — each run issues the count query
once and the offset-fetch query at most once. -/
theorem c2_sampling_notfound (store : SampleStore) (rng : Nat) :
    ((read_random_user_line store rng).1 = .error .notFound ↔
      store.countResult = .ok 0 ∨
        ∃ n offset, store.countResult = .ok n ∧ n ≠ 0 ∧
          chooseRange n rng = some offset ∧
          store.fetchAtOffset offset = .ok none) ∧
    ((read_random_channel_line store rng).1 = .error .notFound ↔
      store.countResult = .ok 0 ∨
        ∃ n offset, store.countResult = .ok n ∧ n ≠ 0 ∧
          chooseRange n rng = some offset ∧
          store.fetchAtOffset offset = .ok none) ∧
    (store.countResult = .ok 0 →
      (read_random_user_line store rng).2 = [.countQ] ∧
      (read_random_channel_line store rng).2 = [.countQ]) ∧
    ((read_random_user_line store rng).2 = [.countQ] ∨
      ∃ offset,
        (read_random_user_line store rng).2 = [.countQ, .offsetFetchQ offset]) ∧
    ((read_random_channel_line store rng).2 = [.countQ] ∨
      ∃ offset,
        (read_random_channel_line store rng).2
          = [.countQ, .offsetFetchQ offset]) := by
  have h1 := sample_notFound_iff store rng
  have h2 := sample_queries_shape store rng
  have he := read_random_user_eq_channel store rng
  exact ⟨h1, he ▸ h1, fun h0 => ⟨h2.2 h0, he ▸ h2.2 h0⟩, h2.1, he ▸ h2.1⟩

/-- C2 witness: with a store whose count is zero, both sampling operations
fail with `NotFound` and issue only the count query. -/
theorem c2_sampling_notfound_witness :
    (read_random_user_line ⟨.ok 0, fun _ => .ok none⟩ 7).2 = [.countQ] ∧
    (read_random_channel_line ⟨.ok 0, fun _ => .ok none⟩ 7).2 = [.countQ] :=
  (c2_sampling_notfound ⟨.ok 0, fun _ => .ok none⟩ 7).2.2.1 rfl

/-- C10: for a positive count the range `[0, count)` is nonempty, so the
draw always yields a value — the `NotFound` mapped onto the draw's `None`
case is unreachable — and under a positive count a sampling run fails with
`NotFound` exactly when the offset fetch at the drawn offset returns no
row. -/
theorem c10_draw_branch_unreachable :
    (∀ n rng : Nat, 0 < n → (chooseRange n rng).isSome) ∧
    (∀ (store : SampleStore) (rng n : Nat),
      store.countResult = .ok n → 0 < n →
      (((read_random_user_line store rng).1 = .error .notFound ↔
          store.fetchAtOffset (rng % n) = .ok none) ∧
        ((read_random_channel_line store rng).1 = .error .notFound ↔
          store.fetchAtOffset (rng % n) = .ok none))) := by
  constructor
  · intro n rng hn
    simp [chooseRange, Nat.pos_iff_ne_zero.mp hn]
  · intro store rng n hc hn
    have hn0 : ¬ n = 0 := Nat.pos_iff_ne_zero.mp hn
    have hch : chooseRange n rng = some (rng % n) := by simp [chooseRange, hn0]
    have he := read_random_user_eq_channel store rng
    have huser : (read_random_user_line store rng).1 = .error .notFound ↔
        store.fetchAtOffset (rng % n) = .ok none := by
      rcases hf : store.fetchAtOffset (rng % n) with e | o
      · simp [read_random_user_line, hc, hn0, hch, hf]
      · cases o <;> simp [read_random_user_line, hc, hn0, hch, hf]
    exact ⟨huser, he ▸ huser⟩

/-- C10 witness: at count 5 the draw succeeds, and with a store fetching a
row at every offset the run does not produce `NotFound`. -/
theorem c10_draw_branch_unreachable_witness :
    ((0 < 5 ∧ (chooseRange 5 3).isSome) ∧
      ((read_random_user_line ⟨.ok 5, fun _ => .ok (some "ln")⟩ 3).1
          = .error .notFound ↔
        (⟨.ok 5, fun _ => .ok (some "ln")⟩ : SampleStore).fetchAtOffset (3 % 5)
          = .ok none)) :=
  ⟨⟨by decide, c10_draw_branch_unreachable.1 5 3 (by decide)⟩,
    (c10_draw_branch_unreachable.2 ⟨.ok 5, fun _ => .ok (some "ln")⟩ 3 5 rfl
      (by decide)).1⟩

theorem card_filter_mod_eq (n c k : Nat) (hn : 0 < n) (hk : k < n) :
    ((Finset.range (c * n)).filter (fun s => s % n = k)).card = c := by
  have himg : (Finset.range (c * n)).filter (fun s => s % n = k)
      = (Finset.range c).image (fun i => i * n + k) := by
    ext s
    simp only [Finset.mem_filter, Finset.mem_range, Finset.mem_image]
    constructor
    · rintro ⟨hlt, hmod⟩
      refine ⟨s / n, (Nat.div_lt_iff_lt_mul hn).2 hlt, ?_⟩
      rw [← hmod]
      exact Nat.div_add_mod' s n
    · rintro ⟨i, hi, rfl⟩
      refine ⟨?_, ?_⟩
      · calc i * n + k < i * n + n := by omega
          _ = (i + 1) * n := by ring
          _ ≤ c * n := Nat.mul_le_mul_right n (by omega)
      · rw [Nat.add_comm, Nat.add_mul_mod_self_right]
        exact Nat.mod_eq_of_lt hk
  rw [himg, Finset.card_image_of_injective _ ?_, Finset.card_range]
  intro a b hab
  have hab2 : a * n + k = b * n + k := hab
  have : a * n = b * n := by omega
  exact Nat.eq_of_mul_eq_mul_right hn this

/-- C3: the phase-3 offset is drawn from exactly the range `[0, count)`:
the draw always lands in the range, every value of the range is reachable,
and — modelling the collaborator's accepted random words as uniform over a
zone of size `c * count`, as rand's rejection sampling guarantees — every
offset in the range has exactly `c` preimages, i.e. probability
`c / (c * count) = 1 / count`; finally the drawn value is bound into the
phase-3 query unchanged. -/
theorem c3_uniform_offset :
    (∀ n rng : Nat, 0 < n → ∃ k, chooseRange n rng = some k ∧ k < n) ∧
    (∀ n k : Nat, k < n → ∃ rng, chooseRange n rng = some k) ∧
    (∀ n c k : Nat, 0 < n → k < n →
      ((Finset.range (c * n)).filter (fun s => chooseRange n s = some k)).card
        = c) ∧
    (∀ (store : SampleStore) (rng n k : Nat),
      store.countResult = .ok n → chooseRange n rng = some k →
      SampleQuery.offsetFetchQ k ∈ (read_random_user_line store rng).2 ∧
      SampleQuery.offsetFetchQ k ∈ (read_random_channel_line store rng).2) := by
  refine ⟨?_, ?_, ?_, ?_⟩
  · intro n rng hn
    exact ⟨rng % n, by simp [chooseRange, Nat.pos_iff_ne_zero.mp hn],
      Nat.mod_lt _ hn⟩
  · intro n k hk
    refine ⟨k, ?_⟩
    have hn0 : ¬ n = 0 := by omega
    simp [chooseRange, hn0, Nat.mod_eq_of_lt hk]
  · intro n c k hn hk
    have hpred : ∀ s, (chooseRange n s = some k) = (s % n = k) := by
      intro s
      simp [chooseRange, Nat.pos_iff_ne_zero.mp hn]
    calc ((Finset.range (c * n)).filter (fun s => chooseRange n s = some k)).card
        = ((Finset.range (c * n)).filter (fun s => s % n = k)).card := by
          apply congrArg
          apply Finset.filter_congr
          intro s _
          rw [hpred s]
      _ = c := card_filter_mod_eq n c k hn hk
  · intro store rng n k hc hch
    have hn0 : ¬ n = 0 := by
      intro h
      subst h
      simp [chooseRange] at hch
    have hk : k = rng % n := by
      have : chooseRange n rng = some (rng % n) := by simp [chooseRange, hn0]
      rw [this] at hch
      exact (Option.some.injEq _ _ ▸ hch).symm
    subst hk
    have he := read_random_user_eq_channel store rng
    have huser : SampleQuery.offsetFetchQ (rng % n)
        ∈ (read_random_user_line store rng).2 := by
      have hch2 : chooseRange n rng = some (rng % n) := by
        simp [chooseRange, hn0]
      rcases hf : store.fetchAtOffset (rng % n) with e | o
      · simp [read_random_user_line, hc, hn0, hch2, hf]
      · cases o <;> simp [read_random_user_line, hc, hn0, hch2, hf]
    exact ⟨huser, he ▸ huser⟩

/-- C3 witness: at count 4, random word 7 draws offset 3 inside the range,
and over an accepted zone of 3·4 words the offset 2 is drawn by exactly 3 of
them. -/
theorem c3_uniform_offset_witness :
    (∃ k, chooseRange 4 7 = some k ∧ k < 4) ∧
    ((Finset.range (3 * 4)).filter (fun s => chooseRange 4 s = some 2)).card
      = 3 :=
  ⟨c3_uniform_offset.1 4 7 (by decide),
    c3_uniform_offset.2.2.1 4 3 2 (by decide) (by decide)⟩

set_option maxHeartbeats 4000000 in
theorem doy_bounds (doe a b c yoe p q : Int)
    (hdoe : 0 ≤ doe ∧ doe ≤ 146096)
    (ha : doe / 1460 = a) (hb : doe / 36524 = b) (hc : doe / 146096 = c)
    (hy : (doe - a + b - c) / 365 = yoe)
    (hp : yoe / 4 = p) (hq : yoe / 100 = q) :
    0 ≤ doe - (365 * yoe + p - q) ∧ doe - (365 * yoe + p - q) ≤ 365 := by
  have hyoe : 0 ≤ yoe ∧ yoe ≤ 399 := by omega
  obtain ⟨h0, h1⟩ := hyoe
  interval_cases yoe <;> omega

set_option maxHeartbeats 1000000 in
theorem daysFromCivil_closed_form (era yoe p q doy mp X d m Y : Int)
    (hyoe : 0 ≤ yoe ∧ yoe ≤ 399)
    (hmp : 0 ≤ mp ∧ mp ≤ 11)
    (hp : yoe / 4 = p) (hq : yoe / 100 = q)
    (hX : (153 * mp + 2) / 5 = X)
    (hd : d = doy - X + 1)
    (hm : m = if mp < 10 then mp + 3 else mp - 9)
    (hY : Y = if m ≤ 2 then yoe + era * 400 + 1 else yoe + era * 400) :
    daysFromCivil Y m d = era * 146097 + (365 * yoe + p - q + doy) - 719468 := by
  simp only [daysFromCivil]
  split_ifs at hm hY ⊢ <;> omega

set_option maxHeartbeats 1000000 in
theorem civil_roundtrip (z : Int) :
    daysFromCivil (civilFromDays z).1 (civilFromDays z).2.1
      (civilFromDays z).2.2 = z := by
  simp only [civilFromDays]
  generalize he1 : (z + 719468) / 146097 = era1
  generalize ha1 : (z + 719468 - era1 * 146097) / 1460 = a1
  generalize hb1 : (z + 719468 - era1 * 146097) / 36524 = b1
  generalize hc1 : (z + 719468 - era1 * 146097) / 146096 = c1
  generalize hy1 : (z + 719468 - era1 * 146097 - a1 + b1 - c1) / 365 = yoe1
  generalize hp1 : yoe1 / 4 = p1
  generalize hq1 : yoe1 / 100 = q1
  have hyoe : 0 ≤ yoe1 ∧ yoe1 ≤ 399 := by omega
  have hdoy := doy_bounds (z + 719468 - era1 * 146097) a1 b1 c1 yoe1 p1 q1
    (by omega) ha1 hb1 hc1 hy1 hp1 hq1
  generalize hm1 :
    (5 * (z + 719468 - era1 * 146097 - (365 * yoe1 + p1 - q1)) + 2) / 153 = mp1
  have hmp : 0 ≤ mp1 ∧ mp1 ≤ 11 := by omega
  generalize hX1 : (153 * mp1 + 2) / 5 = X1
  rw [daysFromCivil_closed_form era1 yoe1 p1 q1
    (z + 719468 - era1 * 146097 - (365 * yoe1 + p1 - q1)) mp1 X1
    _ _ _ hyoe hmp hp1 hq1 hX1 rfl rfl ?hYeq]
  case hYeq =>
    split_ifs <;> ring
  omega

theorem civilFromDays_injective (z w : Int)
    (h : civilFromDays z = civilFromDays w) : z = w := by
  have hz := civil_roundtrip z
  have hw := civil_roundtrip w
  rw [h] at hz
  omega

theorem fromTimestampOpt_some (t : Int) (ymd : Int × Int × Int)
    (h : fromTimestampOpt t = some ymd) :
    ymd = civilFromDays (t / 86400) := by
  simp only [fromTimestampOpt] at h
  split at h
  · exact absurd h (by simp)
  · exact (Option.some.inj h).symm

theorem channel_logs_ok_map (ts : List Int) (ds : List AvailableLogDate)
    (h : read_available_channel_logs ts = .ok ds) :
    ds = ts.map fun t => channelBucketDate (civilFromDays (t / 86400)) := by
  induction ts generalizing ds with
  | nil =>
    rw [read_available_channel_logs] at h
    simp [(Except.ok.inj h).symm]
  | cons t rest ih =>
    rw [read_available_channel_logs] at h
    cases hft : fromTimestampOpt t with
    | none => rw [hft] at h; exact absurd h (by simp [discoveryStep])
    | some ymd =>
      rw [hft] at h
      cases hrec : read_available_channel_logs rest with
      | error e => rw [hrec] at h; exact absurd h (by simp [discoveryStep])
      | ok dates =>
        rw [hrec] at h
        simp only [discoveryStep] at h
        have hds : ds = channelBucketDate ymd :: dates := (Except.ok.inj h).symm
        subst hds
        rw [List.map_cons, ← fromTimestampOpt_some t ymd hft, ← ih dates hrec]

theorem user_logs_ok_map (ts : List Int) (ds : List AvailableLogDate)
    (h : read_available_user_logs ts = .ok ds) :
    ds = ts.map fun t => userBucketDate (civilFromDays (t / 86400)) := by
  induction ts generalizing ds with
  | nil =>
    rw [read_available_user_logs] at h
    simp [(Except.ok.inj h).symm]
  | cons t rest ih =>
    rw [read_available_user_logs] at h
    cases hft : fromTimestampOpt t with
    | none => rw [hft] at h; exact absurd h (by simp [discoveryStep])
    | some ymd =>
      rw [hft] at h
      cases hrec : read_available_user_logs rest with
      | error e => rw [hrec] at h; exact absurd h (by simp [discoveryStep])
      | ok dates =>
        rw [hrec] at h
        simp only [discoveryStep] at h
        have hds : ds = userBucketDate ymd :: dates := (Except.ok.inj h).symm
        subst hds
        rw [List.map_cons, ← fromTimestampOpt_some t ymd hft, ← ih dates hrec]

/-- C4: every bucket descriptor produced by channel-level discovery carries a
day component, and every descriptor produced by user-level discovery has an
absent day component, for all store-returned bucket timestamp lists. -/
theorem c4_day_component (tsC tsU : List Int) (dsC dsU : List AvailableLogDate)
    (hC : read_available_channel_logs tsC = .ok dsC)
    (hU : read_available_user_logs tsU = .ok dsU) :
    (∀ d ∈ dsC, (AvailableLogDate.day d).isSome) ∧
    (∀ d ∈ dsU, AvailableLogDate.day d = none) := by
  constructor
  · intro d hd
    rw [channel_logs_ok_map tsC dsC hC] at hd
    obtain ⟨t, _, rfl⟩ := List.mem_map.mp hd
    rfl
  · intro d hd
    rw [user_logs_ok_map tsU dsU hU] at hd
    obtain ⟨t, _, rfl⟩ := List.mem_map.mp hd
    rfl

/-- C4 witness: discovery over concrete epoch-day buckets. -/
theorem c4_day_component_witness :
    (∀ d ∈ [AvailableLogDate.mk "1970" "1" (some "1")],
      (AvailableLogDate.day d).isSome) ∧
    (∀ d ∈ [AvailableLogDate.mk "1970" "1" none],
      AvailableLogDate.day d = none) :=
  c4_day_component [0] [0] _ _ rfl rfl

theorem channel_logs_error_iff (ts : List Int) :
    read_available_channel_logs ts = .error .invariantViolation ↔
      ∃ t ∈ ts, fromTimestampOpt t = none := by
  induction ts with
  | nil => simp [read_available_channel_logs]
  | cons t rest ih =>
    cases hft : fromTimestampOpt t with
    | none => simp [read_available_channel_logs, discoveryStep, hft]
    | some ymd =>
      cases hrec : read_available_channel_logs rest <;>
        rw [hrec] at ih <;>
        simp [read_available_channel_logs, discoveryStep, hft, hrec, ← ih]

theorem user_logs_error_iff (ts : List Int) :
    read_available_user_logs ts = .error .invariantViolation ↔
      ∃ t ∈ ts, fromTimestampOpt t = none := by
  induction ts with
  | nil => simp [read_available_user_logs]
  | cons t rest ih =>
    cases hft : fromTimestampOpt t with
    | none => simp [read_available_user_logs, discoveryStep, hft]
    | some ymd =>
      cases hrec : read_available_user_logs rest <;>
        rw [hrec] at ih <;>
        simp [read_available_user_logs, discoveryStep, hft, hrec, ← ih]

/-- C5: bucket discovery fails with the fatal InvariantViolation error kind
exactly when the store returned a bucket-start timestamp whose date falls
outside the representable calendar range, for both channel-level and
user-level discovery. -/
theorem c5_invariant_violation (tsC tsU : List Int) :
    (read_available_channel_logs tsC = .error .invariantViolation ↔
      ∃ t ∈ tsC, fromTimestampOpt t = none) ∧
    (read_available_user_logs tsU = .error .invariantViolation ↔
      ∃ t ∈ tsU, fromTimestampOpt t = none) :=
  ⟨channel_logs_error_iff tsC, user_logs_error_iff tsU⟩

/-- C7: provided the store honours the discovery query's GROUP BY / ORDER BY
DESC contract — strictly descending distinct day-start (for user discovery,
month-start) bucket timestamps — discovery returns exactly one entry per
store-returned bucket value, in the store's order, and the discovered bucket
keys are strictly descending chronologically with no duplicates. -/
theorem c7_discovery_sorted (tsC tsU : List Int)
    (dsC dsU : List AvailableLogDate)
    (hsC : tsC.Pairwise (· > ·)) (hdC : ∀ t ∈ tsC, t % 86400 = 0)
    (hokC : read_available_channel_logs tsC = .ok dsC)
    (hsU : tsU.Pairwise (· > ·))
    (hdU : ∀ t ∈ tsU, t % 86400 = 0 ∧ (civilFromDays (t / 86400)).2.2 = 1)
    (hokU : read_available_user_logs tsU = .ok dsU) :
    dsC = (tsC.map fun t => channelBucketDate (civilFromDays (t / 86400))) ∧
    dsU = (tsU.map fun t => userBucketDate (civilFromDays (t / 86400))) ∧
    (tsC.map fun t => civilFromDays (t / 86400)).Pairwise chronGT ∧
    (tsU.map fun t => civilFromDays (t / 86400)).Pairwise chronGT ∧
    (tsC.map fun t => civilFromDays (t / 86400)).Nodup ∧
    (tsU.map fun t => monthKey (civilFromDays (t / 86400))).Nodup := by
  have hpairC :
      (tsC.map fun t => civilFromDays (t / 86400)).Pairwise chronGT := by
    rw [List.pairwise_map]
    refine hsC.imp_of_mem ?_
    intro a b ha hb hab
    simp only [chronGT]
    rw [civil_roundtrip, civil_roundtrip]
    have h1 := hdC a ha
    have h2 := hdC b hb
    omega
  have hpairU :
      (tsU.map fun t => civilFromDays (t / 86400)).Pairwise chronGT := by
    rw [List.pairwise_map]
    refine hsU.imp_of_mem ?_
    intro a b ha hb hab
    simp only [chronGT]
    rw [civil_roundtrip, civil_roundtrip]
    have h1 := (hdU a ha).1
    have h2 := (hdU b hb).1
    omega
  refine ⟨channel_logs_ok_map tsC dsC hokC, user_logs_ok_map tsU dsU hokU,
    hpairC, hpairU, ?_, ?_⟩
  · refine hpairC.imp ?_
    intro a b hab heq
    subst heq
    exact lt_irrefl _ hab
  · show (tsU.map fun t => monthKey (civilFromDays (t / 86400))).Pairwise
      (· ≠ ·)
    rw [List.pairwise_map]
    refine hsU.imp_of_mem ?_
    intro a b ha hb hab hkey
    have h1 := hdU a ha
    have h2 := hdU b hb
    simp only [monthKey, Prod.mk.injEq] at hkey
    have heq : civilFromDays (a / 86400) = civilFromDays (b / 86400) :=
      Prod.ext hkey.1 (Prod.ext hkey.2 (h1.2.trans h2.2.symm))
    have := civilFromDays_injective _ _ heq
    omega

/-- C7 witness: two descending day buckets and two descending month buckets
around the epoch. -/
theorem c7_discovery_sorted_witness :
    ([86400, 0].map fun t => civilFromDays (t / 86400)).Pairwise chronGT ∧
    ([2678400, 0].map fun t => monthKey (civilFromDays (t / 86400))).Nodup :=
  ⟨(c7_discovery_sorted [86400, 0] [2678400, 0]
      [⟨"1970", "1", some "2"⟩, ⟨"1970", "1", some "1"⟩]
      [⟨"1970", "2", none⟩, ⟨"1970", "1", none⟩]
      (by decide) (by decide) rfl (by decide) (by decide) rfl).2.2.1,
   (c7_discovery_sorted [86400, 0] [2678400, 0]
      [⟨"1970", "1", some "2"⟩, ⟨"1970", "1", some "1"⟩]
      [⟨"1970", "2", none⟩, ⟨"1970", "1", none⟩]
      (by decide) (by decide) rfl (by decide) (by decide) rfl).2.2.2.2.2⟩

theorem insertionSort_asc_reverse_desc (l : List Row) (hd : l.Pairwise tsNE) :
    List.insertionSort tsLE l = (List.insertionSort tsGE l).reverse := by
  have pA := List.perm_insertionSort tsLE l
  have pD := List.perm_insertionSort tsGE l
  have sA := List.sorted_insertionSort tsLE l
  have sD := List.sorted_insertionSort tsGE l
  have hdA : (List.insertionSort tsLE l).Pairwise tsNE :=
    (List.Perm.pairwise_iff (fun h => h.symm) pA).mpr hd
  have hdD : (List.insertionSort tsGE l).Pairwise tsNE :=
    (List.Perm.pairwise_iff (fun h => h.symm) pD).mpr hd
  have sAlt : (List.insertionSort tsLE l).Pairwise tsLT :=
    (sA.and hdA).imp fun hab => lt_of_le_of_ne hab.1 hab.2
  have sDgt : (List.insertionSort tsGE l).Pairwise fun a b => tsLT b a :=
    (sD.and hdD).imp fun hab => lt_of_le_of_ne hab.1 (Ne.symm hab.2)
  have sDrev : ((List.insertionSort tsGE l).reverse).Pairwise tsLT :=
    List.pairwise_reverse.mpr sDgt
  have perm : (List.insertionSort tsLE l).Perm
      ((List.insertionSort tsGE l).reverse) :=
    pA.trans (pD.symm.trans ((List.insertionSort tsGE l).reverse_perm).symm)
  exact List.eq_of_perm_of_sorted perm sAlt sDrev

/-- C8 counterexample: the claim fails as stated.  With a limit smaller than
the match set, ascending and descending scans select different rows (first
conjunct); and with two matching rows sharing a timestamp, the order-by
direction does not invert their relative order (second conjunct). -/
theorem c8_counterexample :
    ¬ (scanChannel [⟨"c", "u", 0, "a"⟩, ⟨"c", "u", 3600, "b"⟩] "c"
        ⟨1970, 1, 1⟩ false (some 1) none
      = (scanChannel [⟨"c", "u", 0, "a"⟩, ⟨"c", "u", 3600, "b"⟩] "c"
        ⟨1970, 1, 1⟩ true (some 1) none).reverse) ∧
    ¬ (scanChannel [⟨"c", "u", 0, "a"⟩, ⟨"c", "u", 0, "b"⟩] "c"
        ⟨1970, 1, 1⟩ false none none
      = (scanChannel [⟨"c", "u", 0, "a"⟩, ⟨"c", "u", 0, "b"⟩] "c"
        ⟨1970, 1, 1⟩ true none none).reverse) := by
  decide

/-- C8 (amended): with no limit and no offset and pairwise-distinct
timestamps among the matching rows, an ascending scan returns exactly the
reverse of the descending scan's line sequence, for both channel and user
scans. -/
theorem c8_asc_desc_reverse (table : List Row) (cid uid : String)
    (d : ChannelLogDate) (m : UserLogDate)
    (hC : (table.filter fun r =>
        decide (r.channel_id = cid ∧ sameDayBucket r.timestamp d)).Pairwise
      tsNE)
    (hU : (table.filter fun r =>
        decide (r.channel_id = cid ∧ r.user_id = uid ∧
          sameMonthBucket r.timestamp m)).Pairwise tsNE) :
    scanChannel table cid d false none none
      = (scanChannel table cid d true none none).reverse ∧
    scanUser table cid uid m false none none
      = (scanUser table cid uid m true none none).reverse := by
  constructor
  · simp only [scanChannel, paginate, Option.getD, List.drop_zero,
      Bool.false_eq_true, if_false, if_true, List.map_reverse]
    rw [insertionSort_asc_reverse_desc _ hC, List.map_reverse]
  · simp only [scanUser, paginate, Option.getD, List.drop_zero,
      Bool.false_eq_true, if_false, if_true, List.map_reverse]
    rw [insertionSort_asc_reverse_desc _ hU, List.map_reverse]

/-- C8 witness: a two-row day bucket with distinct timestamps. -/
theorem c8_asc_desc_reverse_witness :
    scanChannel [⟨"c", "u", 0, "a"⟩, ⟨"c", "u", 3600, "b"⟩] "c"
        ⟨1970, 1, 1⟩ false none none
      = (scanChannel [⟨"c", "u", 0, "a"⟩, ⟨"c", "u", 3600, "b"⟩] "c"
        ⟨1970, 1, 1⟩ true none none).reverse ∧
    scanUser [⟨"c", "u", 0, "a"⟩, ⟨"c", "u", 3600, "b"⟩] "c" "u"
        ⟨1970, 1⟩ false none none
      = (scanUser [⟨"c", "u", 0, "a"⟩, ⟨"c", "u", 3600, "b"⟩] "c" "u"
        ⟨1970, 1⟩ true none none).reverse :=
  c8_asc_desc_reverse [⟨"c", "u", 0, "a"⟩, ⟨"c", "u", 3600, "b"⟩] "c" "u"
    ⟨1970, 1, 1⟩ ⟨1970, 1⟩ (by decide) (by decide)

/-- C9: the delete mutation's only bind is the user identifier and its text
carries no channel or time condition; applying it removes exactly the rows
whose user identifier matches the given one — membership, relative row
order, and the multiplicity of every row of any other user are preserved. -/
theorem c9_delete_user_scope (table : List Row) (uid : String) :
    (delete_user_logs_query uid).binds = [uid] ∧
    (∀ r : Row, r ∈ delete_user_logs table uid ↔
      r ∈ table ∧ r.user_id ≠ uid) ∧
    (delete_user_logs table uid).Sublist table ∧
    (∀ r : Row, r.user_id ≠ uid →
      (delete_user_logs table uid).count r = table.count r) := by
  refine ⟨rfl, ?_, List.filter_sublist table, ?_⟩
  · intro r
    simp [delete_user_logs, List.mem_filter]
  · intro r hr
    exact List.count_filter (by simp [hr])

/-- C9 witness: deleting user `u` keeps another user's row with its
multiplicity and removes exactly the matching rows. -/
theorem c9_delete_user_scope_witness :
    ((⟨"c", "v", 1, "b"⟩ : Row).user_id ≠ "u") ∧
    (delete_user_logs [⟨"c", "u", 0, "a"⟩, ⟨"c", "v", 1, "b"⟩] "u").count
        ⟨"c", "v", 1, "b"⟩
      = ([⟨"c", "u", 0, "a"⟩, ⟨"c", "v", 1, "b"⟩] : List Row).count
        ⟨"c", "v", 1, "b"⟩ :=
  ⟨by decide,
    (c9_delete_user_scope [⟨"c", "u", 0, "a"⟩, ⟨"c", "v", 1, "b"⟩] "u").2.2.2
      ⟨"c", "v", 1, "b"⟩ (by decide)⟩

end Rustlog

